import Mathlib

set_option autoImplicit false

/-!
Verification of the checkoutmd credential-wallet core against its
natural-language specification.  The definitions below are a shallow
embedding of the TypeScript sources: the policy engine and loader
(src/policy), the audit logger, the in-memory token store, the vault,
and the request-credential tool pipeline.  Host-provided operations
(the CEL evaluator, JSON.parse, AES-GCM decryption, Argon2 key
derivation, Date formatting) are modelled as parameters collected in
the HostExt structure, since they are external libraries, not code of this
repository.  JavaScript numbers are modelled as rationals and
JavaScript Map objects as association lists with insert-or-replace
semantics.
-/

/-- Model of a JavaScript/JSON value (the unknown type in the sources). -/
inductive Json where
  | null
  | bool (b : Bool)
  | num (q : Rat)
  | str (s : String)
  | arr (elems : List Json)
  | obj (fields : List (String × Json))

/-- Property lookup on a JavaScript object, first binding wins. -/
def objLookup (fields : List (String × Json)) (k : String) : Option Json :=
  match fields with
  | [] => none
  | (k2, v) :: rest => if k2 == k then some v else objLookup rest k

/-- JavaScript Map.set: replace in place when the key exists, append otherwise. -/
def jsMapSet {α : Type} (m : List (String × α)) (k : String) (v : α) : List (String × α) :=
  if m.any (fun kv => kv.1 == k) then
    m.map (fun kv => if kv.1 == k then (k, v) else kv)
  else
    m ++ [(k, v)]

/-- JavaScript Map.get. -/
def jsMapGet {α : Type} (m : List (String × α)) (k : String) : Option α :=
  (m.find? (fun kv => kv.1 == k)).map (fun kv => kv.2)

/-- JavaScript Map.delete. -/
def jsMapDelete {α : Type} (m : List (String × α)) (k : String) : List (String × α) :=
  m.filter (fun kv => !(kv.1 == k))

/-- Substring containment, used to state that a reason mentions some text. -/
def strContainsSub (s pat : String) : Bool :=
  s.data.tails.any (fun t => pat.data.isPrefixOf t)

/-- JavaScript truthiness of an optional string (undefined and the empty string are falsy). -/
def strTruthy (o : Option String) : Bool :=
  !(o.getD "" == "")

/-- A TypeScript value of type string or string[]. -/
inductive StrOrList where
  | one (s : String)
  | many (l : List String)

/-- JavaScript truthiness of an optional string-or-array (arrays are always truthy). -/
def soaTruthy : Option StrOrList → Bool
  | none => false
  | some (.one s) => !(s == "")
  | some (.many _) => true

/-- Normalisation done in the sources: Array.isArray(x) ? x : [x]. -/
def soaToList : StrOrList → List String
  | .one s => [s]
  | .many l => l

/-- List form of an optional grant_to entry. -/
def grantList (o : Option StrOrList) : List String :=
  (o.map soaToList).getD []

/-- Decimal-style rendering of a rational for interpolated reason strings. -/
def ratStr (q : Rat) : String :=
  if q.den == 1 then toString q.num else toString q.num ++ "/" ++ toString q.den

/-- An encrypted record: ciphertext, nonce and authentication tag bytes. -/
structure EncryptedPayload where
  ciphertext : List Nat
  iv : List Nat
  authTag : List Nat

/-- Host-provided operations used by the core but implemented by external libraries. -/
structure HostExt where
  cel : String → List (String × Json) → Except String Json
  jsToStr : Json → String
  jsonParse : String → Option Json
  decryptFn : EncryptedPayload → List Nat → Except String String
  deriveKeyFn : String → List Nat → List Nat
  isoOfMs : Int → String

/-- Scope selector of a policy (grant_to field). -/
structure PolicyScope where
  agent_id : Option StrOrList := none
  skill_id : Option StrOrList := none

/-- Budget limits of a policy. -/
structure PolicyBudget where
  max_per_transaction : Option Rat := none
  max_per_month : Option Rat := none
  currency : Option String := none

/-- A single validated policy, as produced by the loader. -/
structure Policy where
  name : String
  description : Option String := none
  credential : String
  grant_to : PolicyScope
  deny : Option (List String) := none
  actions : Option (List String) := none
  budget : Option PolicyBudget := none
  approval_threshold : Option Rat := none
  condition : Option String := none
  scope : Option (List (String × Json)) := none
  ttl : Option Nat := none

/-- A credential request from an agent. -/
structure CredentialRequest where
  credential_name : String
  agent_id : String
  skill_id : Option String := none
  purpose : String
  amount : Option Rat := none
  currency : Option String := none
  action : Option String := none
  context : Option (List (String × Json)) := none

/-- Decision of the policy engine. -/
inductive PolicyDecision where
  | allow
  | deny
  | require_approval
deriving BEq, DecidableEq

/-- Result of a policy evaluation. -/
structure PolicyEvalResult where
  decision : PolicyDecision
  reason : String
  policy_name : Option String := none
  scope : Option (List (String × Json)) := none

/-- Context injected into the engine (the monthly spending scalar). -/
structure EvalContext where
  monthlySpending : Option Rat := none

namespace PolicyEngine

/-- Result returned when every check of a policy passes. -/
def allowResult (policy : Policy) : PolicyEvalResult :=
  { decision := .allow
    reason := "All policy checks passed."
    policy_name := some policy.name
    scope := policy.scope }

/-- Context object handed to the CEL evaluator, base fields then request.context spread. -/
def celContext (request : CredentialRequest) : List (String × Json) :=
  [("agent_id", Json.str request.agent_id),
   ("skill_id", Json.str (request.skill_id.getD "")),
   ("purpose", Json.str request.purpose),
   ("amount", Json.num (request.amount.getD 0)),
   ("currency", Json.str (request.currency.getD "")),
   ("action", Json.str (request.action.getD ""))] ++ request.context.getD []

/-- Evaluation of a single policy against a request, translated from PolicyEngine.evaluate. -/
def evaluate (E : HostExt) (policy : Policy) (request : CredentialRequest)
    (context : EvalContext) : PolicyEvalResult :=
  if (policy.deny.getD []).contains request.agent_id then
    { decision := .deny
      reason := "Agent \x27" ++ request.agent_id ++ "\x27 is explicitly denied by policy \x27" ++
        policy.name ++ "\x27."
      policy_name := some policy.name }
  else if soaTruthy policy.grant_to.agent_id &&
      !((grantList policy.grant_to.agent_id).contains "*") &&
      !((grantList policy.grant_to.agent_id).contains request.agent_id) then
    { decision := .deny
      reason := "Agent \x27" ++ request.agent_id ++ "\x27 is not granted access by policy \x27" ++
        policy.name ++ "\x27."
      policy_name := some policy.name }
  else if strTruthy request.skill_id && soaTruthy policy.grant_to.skill_id &&
      !((grantList policy.grant_to.skill_id).contains "*") &&
      !((grantList policy.grant_to.skill_id).contains (request.skill_id.getD "")) then
    { decision := .deny
      reason := "Skill \x27" ++ request.skill_id.getD "" ++
        "\x27 is not granted access by policy \x27" ++ policy.name ++ "\x27."
      policy_name := some policy.name }
  else if policy.actions.isSome && strTruthy request.action &&
      !((policy.actions.getD []).contains (request.action.getD "")) then
    { decision := .deny
      reason := "Action \x27" ++ request.action.getD "" ++ "\x27 is not allowed by policy \x27" ++
        policy.name ++ "\x27."
      policy_name := some policy.name }
  else if (policy.budget.bind (fun b => b.max_per_transaction)).isSome && request.amount.isSome &&
      decide (((policy.budget.bind (fun b => b.max_per_transaction)).getD 0) <
        request.amount.getD 0) then
    { decision := .deny
      reason := "Amount $" ++ ratStr (request.amount.getD 0) ++
        " exceeds max per transaction $" ++
        ratStr ((policy.budget.bind (fun b => b.max_per_transaction)).getD 0) ++ "."
      policy_name := some policy.name }
  else if (policy.budget.bind (fun b => b.max_per_month)).isSome && request.amount.isSome &&
      decide (((policy.budget.bind (fun b => b.max_per_month)).getD 0) <
        context.monthlySpending.getD 0 + request.amount.getD 0) then
    { decision := .deny
      reason := "Amount $" ++ ratStr (request.amount.getD 0) ++
        " would exceed monthly budget. Spent: $" ++ ratStr (context.monthlySpending.getD 0) ++
        ", limit: $" ++ ratStr ((policy.budget.bind (fun b => b.max_per_month)).getD 0) ++ "."
      policy_name := some policy.name }
  else if policy.approval_threshold.isSome && request.amount.isSome &&
      decide ((policy.approval_threshold.getD 0) < request.amount.getD 0) then
    { decision := .require_approval
      reason := "Amount $" ++ ratStr (request.amount.getD 0) ++
        " exceeds approval threshold $" ++ ratStr (policy.approval_threshold.getD 0) ++ "."
      policy_name := some policy.name
      scope := policy.scope }
  else if strTruthy policy.condition then
    match E.cel (policy.condition.getD "") (celContext request) with
    | .ok (Json.bool true) => allowResult policy
    | .ok v =>
      { decision := .deny
        reason := "CEL condition \x27" ++ policy.condition.getD "" ++ "\x27 evaluated to " ++
          E.jsToStr v ++ "."
        policy_name := some policy.name }
    | .error e =>
      { decision := .deny
        reason := "CEL evaluation error: " ++ e
        policy_name := some policy.name }
  else
    allowResult policy

/-- Result returned by evaluateFirst when no policy governs the requested credential. -/
def noPolicyResult (request : CredentialRequest) : PolicyEvalResult :=
  { decision := .deny
    reason := "No policy found for credential \x27" ++ request.credential_name ++ "\x27." }

/-- Loop body of evaluateFirst: return the first allow or require_approval result. -/
def evalLoop (E : HostExt) (request : CredentialRequest) (context : EvalContext) :
    List Policy → Option PolicyEvalResult
  | [] => none
  | p :: ps =>
    let r := evaluate E p request context
    if r.decision == .allow then some r
    else if r.decision == .require_approval then some r
    else evalLoop E request context ps

/-- Evaluation over the ordered policy list, translated from PolicyEngine.evaluateFirst. -/
def evaluateFirst (E : HostExt) (policies : List Policy) (request : CredentialRequest)
    (context : EvalContext) : PolicyEvalResult :=
  let matching := policies.filter (fun p => p.credential == request.credential_name)
  match matching with
  | [] => noPolicyResult request
  | p :: ps =>
    match evalLoop E request context (p :: ps) with
    | some r => r
    | none => evaluate E ((p :: ps).getLast (List.cons_ne_nil p ps)) request context

end PolicyEngine

/-- Zod z.string(). -/
def parseStr : Json → Except String String
  | .str s => .ok s
  | _ => .error "Expected string"

/-- Zod z.string().min(1). -/
def parseStrMin1 : Json → Except String String
  | .str s => if s == "" then .error "String must contain at least 1 character" else .ok s
  | _ => .error "Expected string"

/-- Zod z.array(z.string()). -/
def parseStrArray : Json → Except String (List String)
  | .arr xs => xs.mapM parseStr
  | _ => .error "Expected array"

/-- Zod z.number().positive(). -/
def parsePosNum : Json → Except String Rat
  | .num q => if 0 < q then .ok q else .error "Number must be greater than 0"
  | _ => .error "Expected number"

/-- Zod z.number().int().positive(). -/
def parsePosInt : Json → Except String Nat
  | .num q => if 0 < q ∧ q.den = 1 then .ok q.num.toNat else .error "Expected positive integer"
  | _ => .error "Expected number"

/-- Zod z.union of a string and an array of strings. -/
def parseSoa : Json → Except String StrOrList
  | .str s => .ok (.one s)
  | .arr xs => (xs.mapM parseStr).map .many
  | _ => .error "Expected string or array of strings"

/-- Zod z.record(z.unknown()). -/
def parseRecord : Json → Except String (List (String × Json))
  | .obj fields => .ok fields
  | _ => .error "Expected record"

/-- Optional field of a zod object schema: absent keys yield none. -/
def optField {α : Type} (fields : List (String × Json)) (k : String)
    (p : Json → Except String α) : Except String (Option α) :=
  match objLookup fields k with
  | none => .ok none
  | some v => (p v).map some

/-- Required field of a zod object schema. -/
def reqField {α : Type} (fields : List (String × Json)) (k : String)
    (p : Json → Except String α) : Except String α :=
  match objLookup fields k with
  | none => .error ("Required field missing: " ++ k)
  | some v => p v

/-- PolicyScopeSchema from the sources: optional agent_id and skill_id selectors. -/
def parseScope : Json → Except String PolicyScope
  | .obj fields => do
      let a ← optField fields "agent_id" parseSoa
      let s ← optField fields "skill_id" parseSoa
      .ok { agent_id := a, skill_id := s }
  | _ => .error "Expected object"

/-- PolicyBudgetSchema from the sources. -/
def parseBudget : Json → Except String PolicyBudget
  | .obj fields => do
      let t ← optField fields "max_per_transaction" parsePosNum
      let m ← optField fields "max_per_month" parsePosNum
      let c ← optField fields "currency" parseStr
      .ok { max_per_transaction := t, max_per_month := m, currency := c }
  | _ => .error "Expected object"

/-- PolicySchema from the sources; a zod object is non-strict, so keys outside the
declared ones are never consulted. -/
def parsePolicy : Json → Except String Policy
  | .obj fields => do
      let name ← reqField fields "name" parseStrMin1
      let description ← optField fields "description" parseStr
      let credential ← reqField fields "credential" parseStrMin1
      let grantTo ← reqField fields "grant_to" parseScope
      let denyList ← optField fields "deny" parseStrArray
      let actions ← optField fields "actions" parseStrArray
      let budget ← optField fields "budget" parseBudget
      let approvalThreshold ← optField fields "approval_threshold" parsePosNum
      let condition ← optField fields "condition" parseStr
      let scope ← optField fields "scope" parseRecord
      let ttl ← optField fields "ttl" parsePosInt
      .ok { name := name, description := description, credential := credential,
            grant_to := grantTo, deny := denyList, actions := actions, budget := budget,
            approval_threshold := approvalThreshold, condition := condition,
            scope := scope, ttl := ttl }
  | _ => .error "Expected object"

/-- A validated policy document. -/
structure PolicyFile where
  version : String
  policies : List Policy

/-- PolicyFileSchema from the sources: version string plus list of policies. -/
def parsePolicyFile : Json → Except String PolicyFile
  | .obj fields => do
      let version ← reqField fields "version" parseStr
      let policies ← reqField fields "policies" (fun v =>
        match v with
        | .arr xs => xs.mapM parsePolicy
        | _ => .error "Expected array")
      .ok { version := version, policies := policies }
  | _ => .error "Expected object"

/-- State of the policy loader: its name-indexed Map of policies. -/
structure PolicyLoader where
  policies : List (String × Policy) := []

namespace PolicyLoader

/-- Validation plus indexing by name, translated from PolicyLoader.loadFromObject. -/
def loadFromObject (data : Json) : Except String PolicyLoader := do
  let validated ← parsePolicyFile data
  .ok { policies := validated.policies.foldl (fun m p => jsMapSet m p.name p) [] }

/-- Lookup by policy name. -/
def getPolicy (st : PolicyLoader) (name : String) : Option Policy :=
  jsMapGet st.policies name

/-- All loaded policies in Map iteration order. -/
def listPolicies (st : PolicyLoader) : List Policy :=
  st.policies.map (fun kv => kv.2)

/-- Conservative pre-filter, translated from PolicyLoader.listPoliciesForAgent. -/
def listPoliciesForAgent (st : PolicyLoader) (agentId : String) (skillId : Option String) :
    List Policy :=
  (listPolicies st).filter (fun policy =>
    if (policy.deny.getD []).contains agentId then false
    else if soaTruthy policy.grant_to.agent_id &&
        !((grantList policy.grant_to.agent_id).contains "*") &&
        !((grantList policy.grant_to.agent_id).contains agentId) then false
    else if strTruthy skillId && soaTruthy policy.grant_to.skill_id &&
        !((grantList policy.grant_to.skill_id).contains "*") &&
        !((grantList policy.grant_to.skill_id).contains (skillId.getD "")) then false
    else true)

end PolicyLoader

/-- A persisted audit_log row. -/
structure AuditRow where
  id : Nat
  timestamp : String
  event : String
  policy : Option String := none
  agent_id : Option String := none
  skill_id : Option String := none
  purpose : Option String := none
  token_id : Option String := none
  credential_name : Option String := none
  scope : Option String := none
  context : Option String := none
  outcome : Option String := none
  approval : Option String := none
  details : Option String := none

/-- SQL LIKE matching over character lists, with the % and _ wildcards. -/
def likeMatch : List Char → List Char → Bool
  | [], [] => true
  | [], _ :: _ => false
  | '%' :: ps, s =>
    likeMatch ps s ||
      (match s with
       | [] => false
       | _ :: s2 => likeMatch ('%' :: ps) s2)
  | '_' :: ps, _ :: s => likeMatch ps s
  | '_' :: _, [] => false
  | p :: ps, c :: s => p == c && likeMatch ps s
  | _ :: _, [] => false
termination_by p s => p.length + s.length

/-- SQL LIKE on strings. -/
def sqlLike (pattern : String) (s : String) : Bool :=
  likeMatch pattern.data s.data

namespace AuditLogger

/-- Monthly spending aggregate, translated from AuditLogger.getMonthlySpending.
The SQL SELECT is modelled as a filter over the stored rows and the row loop as a fold;
currentMonth stands for the YYYY-MM slice of the current UTC instant. -/
def getMonthlySpending (E : HostExt) (rows : List AuditRow) (credentialName : String)
    (month : Option String) (currentMonth : String) : Rat :=
  let targetMonth :=
    match month with
    | some m => if m == "" then currentMonth else m
    | none => currentMonth
  let selected := rows.filter (fun r =>
    r.event == "credential_used" && r.credential_name == some credentialName &&
      sqlLike (targetMonth ++ "%") r.timestamp)
  selected.foldl (fun total r =>
    match r.details with
    | none => total
    | some d =>
      if d == "" then total
      else
        match E.jsonParse d with
        | none => total
        | some (.obj kvs) =>
          match objLookup kvs "amount" with
          | some (.num q) => total + q
          | _ => total
        | some _ => total) 0

end AuditLogger

/-- A scoped token record. -/
structure ScopedToken where
  token_id : String
  credential_name : String
  credential_value : String
  policy_name : String
  agent_id : String
  skill_id : Option String := none
  scope : List (String × Json) := []
  issued_at : Int
  expires_at : Int
  used : Bool

/-- Parameters of TokenStore.issue. -/
structure IssueParams where
  credential_name : String
  credential_value : String
  policy_name : String
  agent_id : String
  skill_id : Option String := none
  scope : Option (List (String × Json)) := none
  ttl : Option Nat := none

/-- State of the in-memory token store. -/
structure TokenStore where
  tokens : List (String × ScopedToken) := []

namespace TokenStore

/-- Token issuance, translated from TokenStore.issue; uuid and now stand for the
host randomUUID() and Date.now() calls. -/
def issue (params : IssueParams) (uuid : String) (now : Int) (st : TokenStore) :
    ScopedToken × TokenStore :=
  let ttlMs : Int := ((params.ttl.getD 300 : Nat) : Int) * 1000
  let token : ScopedToken :=
    { token_id := uuid
      credential_name := params.credential_name
      credential_value := params.credential_value
      policy_name := params.policy_name
      agent_id := params.agent_id
      skill_id := params.skill_id
      scope := params.scope.getD []
      issued_at := now
      expires_at := now + ttlMs
      used := false }
  (token, { tokens := jsMapSet st.tokens token.token_id token })

/-- Token lookup with lazy expiry, translated from TokenStore.get. -/
def get (tokenId : String) (now : Int) (st : TokenStore) : Option ScopedToken × TokenStore :=
  match jsMapGet st.tokens tokenId with
  | none => (none, st)
  | some token =>
    if token.expires_at ≤ now then (none, { tokens := jsMapDelete st.tokens tokenId })
    else (some token, st)

end TokenStore

/-- A persisted credentials row of the vault database. -/
structure CredRow where
  id : String
  name : String
  type : String
  encrypted_data : List Nat
  iv : List Nat
  auth_tag : List Nat
  metadata : List (String × String)
  created_at : String
  updated_at : String

/-- A decrypted credential returned by the vault. -/
structure Credential where
  id : String
  name : String
  type : String
  value : String
  metadata : List (String × String)
  created_at : String
  updated_at : String

/-- A credential listing entry, with no decrypted value. -/
structure CredentialSummary where
  id : String
  name : String
  type : String
  metadata : List (String × String)
  created_at : String
  updated_at : String

/-- State of the vault.  Buffers allocated for derived keys live in heap so that the
fate of their bytes is observable; key is the reference this.key, an index into heap. -/
structure Vault where
  heap : List (List Nat) := []
  key : Option Nat := none
  salt : Option (List Nat) := none
  creds : List CredRow := []

namespace Vault

/-- Message of the VaultLocked error in the sources. -/
def vaultLockedMsg : String := "Vault is locked. Call initialize() or unlock() first."

/-- Fresh vault instance over an empty database. -/
def emptyVault : Vault := {}

/-- Vault initialization, translated from Vault.initialize; saltBytes stands for the
host randomBytes call. -/
def initializeVault (E : HostExt) (passphrase : String) (saltBytes : List Nat) (v : Vault) :
    Except String Vault :=
  if v.salt.isSome then
    .error "Vault is already initialized. Use unlock() instead."
  else
    .ok { v with
      salt := some saltBytes
      heap := v.heap ++ [E.deriveKeyFn passphrase saltBytes]
      key := some v.heap.length }

/-- Vault unlock, translated from Vault.unlock. -/
def unlock (E : HostExt) (passphrase : String) (v : Vault) : Except String Vault :=
  match v.salt with
  | none => .error "Vault is not initialized. Use initialize() first."
  | some saltBytes =>
    .ok { v with
      heap := v.heap ++ [E.deriveKeyFn passphrase saltBytes]
      key := some v.heap.length }

/-- Credential fetch with decryption, translated from Vault.getCredential;
a thrown error (vault locked, authentication failure) is the error case. -/
def getCredential (E : HostExt) (v : Vault) (name : String) : Except String (Option Credential) :=
  match v.key with
  | none => .error vaultLockedMsg
  | some i =>
    match v.creds.find? (fun row => row.name == name) with
    | none => .ok none
    | some row => do
      let value ← E.decryptFn ⟨row.encrypted_data, row.iv, row.auth_tag⟩ (v.heap.getD i [])
      .ok (some { id := row.id, name := row.name, type := row.type, value := value,
                  metadata := row.metadata, created_at := row.created_at,
                  updated_at := row.updated_at })

/-- Credential listing, translated from Vault.listCredentials. -/
def listCredentials (v : Vault) : Except String (List CredentialSummary) :=
  match v.key with
  | none => .error vaultLockedMsg
  | some _ =>
    .ok (v.creds.map (fun row =>
      { id := row.id, name := row.name, type := row.type, metadata := row.metadata,
        created_at := row.created_at, updated_at := row.updated_at }))

/-- Vault close, translated from Vault.close: the statement this.key = null drops the
reference; nothing is written to the buffer it pointed at. -/
def close (v : Vault) : Vault :=
  { v with key := none }

end Vault

/-- An entry handed to AuditLogger.log by the tool pipeline. -/
structure AuditEntry where
  timestamp : String
  event : String
  policy : Option String := none
  agent_id : Option String := none
  skill_id : Option String := none
  purpose : Option String := none
  token_id : Option String := none
  credential_name : Option String := none
  scope : Option (List (String × Json)) := none
  context : Option (List (String × Json)) := none
  outcome : Option String := none
  approval : Option String := none
  details : Option String := none

/-- Response mapping returned by the request_credential tool. -/
structure RcResponse where
  status : String
  reason : Option String := none
  policy : Option String := none
  token_id : Option String := none
  credential_value : Option String := none
  expires_at : Option String := none
  scope : Option (List (String × Json)) := none

/-- Components the request_credential handler closes over. -/
structure RcDeps where
  vault : Vault
  policyLoader : PolicyLoader
  auditRows : List AuditRow
  tokenStore : TokenStore

/-- Result of one request_credential invocation: its response, the audit entries it
appended in order, and the resulting token store. -/
structure RcOutcome where
  response : RcResponse
  events : List AuditEntry
  tokenStore : TokenStore

/-- The request_credential tool handler, translated from registerRequestCredential;
nowIso, currentMonth, uuid and nowMs stand for the host clock and UUID calls, and the
error case models an exception escaping the handler. -/
def requestCredential (E : HostExt) (deps : RcDeps) (nowIso : String) (currentMonth : String)
    (uuid : String) (nowMs : Int) (request : CredentialRequest) : Except String RcOutcome :=
  let requestedEvent : AuditEntry :=
    { timestamp := nowIso, event := "credential_requested",
      agent_id := some request.agent_id, skill_id := request.skill_id,
      credential_name := some request.credential_name, purpose := some request.purpose }
  let policies := PolicyLoader.listPoliciesForAgent deps.policyLoader request.agent_id
    request.skill_id
  let monthlySpending := AuditLogger.getMonthlySpending E deps.auditRows
    request.credential_name none currentMonth
  let result := PolicyEngine.evaluateFirst E policies request
    { monthlySpending := some monthlySpending }
  match result.decision with
  | .deny =>
    .ok { response := { status := "denied", reason := some result.reason }
          events := [requestedEvent,
            { timestamp := nowIso, event := "credential_denied", policy := result.policy_name,
              agent_id := some request.agent_id, skill_id := request.skill_id,
              credential_name := some request.credential_name, purpose := some request.purpose,
              outcome := some "denied", details := some result.reason }]
          tokenStore := deps.tokenStore }
  | .require_approval =>
    .ok { response := { status := "require_approval", reason := some result.reason,
                        policy := result.policy_name }
          events := [requestedEvent,
            { timestamp := nowIso, event := "approval_required", policy := result.policy_name,
              agent_id := some request.agent_id, skill_id := request.skill_id,
              credential_name := some request.credential_name, purpose := some request.purpose,
              outcome := some "pending_approval", details := some result.reason }]
          tokenStore := deps.tokenStore }
  | .allow =>
    match Vault.getCredential E deps.vault request.credential_name with
    | .error e => .error e
    | .ok none =>
      .ok { response := { status := "error",
                          reason := some ("Credential \x27" ++ request.credential_name ++
                            "\x27 not found in vault.") }
            events := [requestedEvent]
            tokenStore := deps.tokenStore }
    | .ok (some credential) =>
      let matchingPolicy := PolicyLoader.getPolicy deps.policyLoader (result.policy_name.getD "")
      let issued := TokenStore.issue
        { credential_name := credential.name, credential_value := credential.value,
          policy_name := result.policy_name.getD "", agent_id := request.agent_id,
          skill_id := request.skill_id, scope := result.scope,
          ttl := matchingPolicy.bind (fun p => p.ttl) } uuid nowMs deps.tokenStore
      .ok { response :=
              { status := "granted", token_id := some issued.1.token_id,
                credential_value := some issued.1.credential_value,
                expires_at := some (E.isoOfMs issued.1.expires_at),
                scope := some issued.1.scope }
            events := [requestedEvent,
              { timestamp := nowIso, event := "credential_granted",
                policy := result.policy_name,
                agent_id := some request.agent_id, skill_id := request.skill_id,
                credential_name := some request.credential_name,
                purpose := some request.purpose,
                token_id := some issued.1.token_id, scope := some issued.1.scope,
                outcome := some "granted" }]
            tokenStore := issued.2 }

namespace PolicyEngine

/-- Check 1 of the specification order: the explicit deny list. -/
def denyCheck (policy : Policy) (request : CredentialRequest) : Option PolicyEvalResult :=
  if (policy.deny.getD []).contains request.agent_id then
    some { decision := .deny
           reason := "Agent \x27" ++ request.agent_id ++
             "\x27 is explicitly denied by policy \x27" ++ policy.name ++ "\x27."
           policy_name := some policy.name }
  else none

/-- Check 2: the grant_to agent scope. -/
def agentScopeCheck (policy : Policy) (request : CredentialRequest) : Option PolicyEvalResult :=
  if soaTruthy policy.grant_to.agent_id &&
      !((grantList policy.grant_to.agent_id).contains "*") &&
      !((grantList policy.grant_to.agent_id).contains request.agent_id) then
    some { decision := .deny
           reason := "Agent \x27" ++ request.agent_id ++
             "\x27 is not granted access by policy \x27" ++ policy.name ++ "\x27."
           policy_name := some policy.name }
  else none

/-- Check 3: the grant_to skill scope, skipped when the request has no skill. -/
def skillScopeCheck (policy : Policy) (request : CredentialRequest) : Option PolicyEvalResult :=
  if strTruthy request.skill_id && soaTruthy policy.grant_to.skill_id &&
      !((grantList policy.grant_to.skill_id).contains "*") &&
      !((grantList policy.grant_to.skill_id).contains (request.skill_id.getD "")) then
    some { decision := .deny
           reason := "Skill \x27" ++ request.skill_id.getD "" ++
             "\x27 is not granted access by policy \x27" ++ policy.name ++ "\x27."
           policy_name := some policy.name }
  else none

/-- Check 4: the actions allow-list. -/
def actionsCheck (policy : Policy) (request : CredentialRequest) : Option PolicyEvalResult :=
  if policy.actions.isSome && strTruthy request.action &&
      !((policy.actions.getD []).contains (request.action.getD "")) then
    some { decision := .deny
           reason := "Action \x27" ++ request.action.getD "" ++
             "\x27 is not allowed by policy \x27" ++ policy.name ++ "\x27."
           policy_name := some policy.name }
  else none

/-- Check 5: the per-transaction budget. -/
def perTransactionCheck (policy : Policy) (request : CredentialRequest) :
    Option PolicyEvalResult :=
  if (policy.budget.bind (fun b => b.max_per_transaction)).isSome && request.amount.isSome &&
      decide (((policy.budget.bind (fun b => b.max_per_transaction)).getD 0) <
        request.amount.getD 0) then
    some { decision := .deny
           reason := "Amount $" ++ ratStr (request.amount.getD 0) ++
             " exceeds max per transaction $" ++
             ratStr ((policy.budget.bind (fun b => b.max_per_transaction)).getD 0) ++ "."
           policy_name := some policy.name }
  else none

/-- Check 6: the monthly budget against injected monthly spending. -/
def monthlyBudgetCheck (policy : Policy) (request : CredentialRequest)
    (context : EvalContext) : Option PolicyEvalResult :=
  if (policy.budget.bind (fun b => b.max_per_month)).isSome && request.amount.isSome &&
      decide (((policy.budget.bind (fun b => b.max_per_month)).getD 0) <
        context.monthlySpending.getD 0 + request.amount.getD 0) then
    some { decision := .deny
           reason := "Amount $" ++ ratStr (request.amount.getD 0) ++
             " would exceed monthly budget. Spent: $" ++
             ratStr (context.monthlySpending.getD 0) ++ ", limit: $" ++
             ratStr ((policy.budget.bind (fun b => b.max_per_month)).getD 0) ++ "."
           policy_name := some policy.name }
  else none

/-- Check 7: the approval threshold, the only check yielding require_approval. -/
def approvalCheck (policy : Policy) (request : CredentialRequest) : Option PolicyEvalResult :=
  if policy.approval_threshold.isSome && request.amount.isSome &&
      decide ((policy.approval_threshold.getD 0) < request.amount.getD 0) then
    some { decision := .require_approval
           reason := "Amount $" ++ ratStr (request.amount.getD 0) ++
             " exceeds approval threshold $" ++ ratStr (policy.approval_threshold.getD 0) ++ "."
           policy_name := some policy.name
           scope := policy.scope }
  else none

/-- Check 8: the optional CEL condition. -/
def conditionCheck (E : HostExt) (policy : Policy) (request : CredentialRequest) :
    Option PolicyEvalResult :=
  if strTruthy policy.condition then
    match E.cel (policy.condition.getD "") (celContext request) with
    | .ok (Json.bool true) => none
    | .ok v =>
      some { decision := .deny
             reason := "CEL condition \x27" ++ policy.condition.getD "" ++
               "\x27 evaluated to " ++ E.jsToStr v ++ "."
             policy_name := some policy.name }
    | .error e =>
      some { decision := .deny
             reason := "CEL evaluation error: " ++ e
             policy_name := some policy.name }
  else none

/-- Checks of the specification, in its stated order. -/
def checkList (E : HostExt) (policy : Policy) (request : CredentialRequest)
    (context : EvalContext) : List (Option PolicyEvalResult) :=
  [denyCheck policy request,
   agentScopeCheck policy request,
   skillScopeCheck policy request,
   actionsCheck policy request,
   perTransactionCheck policy request,
   monthlyBudgetCheck policy request context,
   approvalCheck policy request,
   conditionCheck E policy request]

/-- Result of the first failing check of an ordered check list. -/
def firstFail : List (Option PolicyEvalResult) → Option PolicyEvalResult
  | [] => none
  | none :: rest => firstFail rest
  | some r :: _ => some r

end PolicyEngine

theorem firstFail_mem (l : List (Option PolicyEvalResult)) (r : PolicyEvalResult)
    (h : PolicyEngine.firstFail l = some r) : some r ∈ l := by
  induction l with
  | nil => simp [PolicyEngine.firstFail] at h
  | cons o rest ih =>
    cases o with
    | none =>
      simp only [PolicyEngine.firstFail] at h
      exact List.mem_cons_of_mem _ (ih h)
    | some r2 =>
      simp only [PolicyEngine.firstFail] at h
      cases h
      exact List.mem_cons_self _ _

theorem strContainsSub_append (a p b : String) : strContainsSub (a ++ p ++ b) p = true := by
  unfold strContainsSub
  rw [List.any_eq_true]
  refine ⟨p.data ++ b.data, ?_, ?_⟩
  · rw [List.mem_tails]
    exact ⟨a.data, by show a.data ++ (p.data ++ b.data) = (a ++ p ++ b).data; simp [List.append_assoc]⟩
  · exact List.isPrefixOf_iff_prefix.mpr ⟨b.data, rfl⟩


/-- Stub host extension for concrete runs: a CEL evaluator that always returns true,
and inert JSON, crypto and formatting hooks. -/
def celStubExt : HostExt where
  cel := fun _ _ => .ok (.bool true)
  jsToStr := fun _ => ""
  jsonParse := fun _ => none
  decryptFn := fun _ _ => .error "Unsupported state or unable to authenticate data"
  deriveKeyFn := fun _ _ => [7, 7, 7]
  isoOfMs := fun _ => ""

/-- The policy of the end-to-end scenarios: grants test-agent the charge action with
budgets 100 per transaction, 500 per month, approval threshold 75 and ttl 60. -/
def stripeLikePolicy : Policy where
  name := "test-stripe"
  credential := "stripe-key"
  grant_to := { agent_id := some (.many ["test-agent"]) }
  actions := some ["charge"]
  budget := some { max_per_transaction := some 100, max_per_month := some 500 }
  approval_threshold := some 75
  ttl := some 60

/-- Scenario 4 request: amount 150 exceeds the per-transaction cap. -/
def overTxRequest : CredentialRequest where
  credential_name := "stripe-key"
  agent_id := "test-agent"
  purpose := "too expensive"
  amount := some 150
  action := some "charge"

/-- Claim C3 (counterexample): the per-transaction budget denial is the first failing
check, yet its reason text does not name the policy (the name travels only in the
policy_name field), refuting that the reason of the first failing check names the policy. -/
theorem evaluate_budget_reason_omits_policy_name :
    PolicyEngine.evaluate celStubExt stripeLikePolicy overTxRequest {} =
      { decision := .deny
        reason := "Amount $150 exceeds max per transaction $100."
        policy_name := some "test-stripe" }
    ∧ strContainsSub "Amount $150 exceeds max per transaction $100." "test-stripe" = false := by
  constructor
  · rfl
  · decide

/-- Claim C3 (amended): evaluate runs the eight checks in the specified order and the
first failing one determines the decision; with all passing it is allow with the
scope of the policy attached; every failing result records the policy in policy_name, and
the reasons of the deny-list, agent-scope, skill-scope and actions checks embed the
policy name textually (budget, approval and condition reasons do not). -/
theorem evaluate_check_order (E : HostExt) (policy : Policy) (request : CredentialRequest)
    (context : EvalContext) :
    PolicyEngine.evaluate E policy request context =
      (PolicyEngine.firstFail (PolicyEngine.checkList E policy request context)).getD
        (PolicyEngine.allowResult policy)
    ∧ (∀ r, PolicyEngine.firstFail (PolicyEngine.checkList E policy request context) = some r →
        r.policy_name = some policy.name)
    ∧ (∀ r, PolicyEngine.firstFail
          ((PolicyEngine.checkList E policy request context).take 4) = some r →
        strContainsSub r.reason policy.name = true)
    ∧ (PolicyEngine.allowResult policy).scope = policy.scope := by
  refine ⟨?_, ?_, ?_, rfl⟩
  · unfold PolicyEngine.evaluate PolicyEngine.checkList PolicyEngine.denyCheck
      PolicyEngine.agentScopeCheck PolicyEngine.skillScopeCheck PolicyEngine.actionsCheck
      PolicyEngine.perTransactionCheck PolicyEngine.monthlyBudgetCheck
      PolicyEngine.approvalCheck PolicyEngine.conditionCheck
    split_ifs <;> (try simp [PolicyEngine.firstFail])
    cases hE : E.cel (policy.condition.getD "") (PolicyEngine.celContext request) with
    | ok v =>
      cases v with
      | null => simp [hE, PolicyEngine.firstFail]
      | bool b => cases b <;> simp [hE, PolicyEngine.firstFail]
      | num q => simp [hE, PolicyEngine.firstFail]
      | str s => simp [hE, PolicyEngine.firstFail]
      | arr xs => simp [hE, PolicyEngine.firstFail]
      | obj kvs => simp [hE, PolicyEngine.firstFail]
    | error e => simp [hE, PolicyEngine.firstFail]
  · intro r hr
    have hmem := firstFail_mem _ _ hr
    simp only [PolicyEngine.checkList, List.mem_cons, List.not_mem_nil, or_false] at hmem
    rcases hmem with h | h | h | h | h | h | h | h
    · unfold PolicyEngine.denyCheck at h
      split at h
      · cases h; rfl
      · exact Option.noConfusion h
    · unfold PolicyEngine.agentScopeCheck at h
      split at h
      · cases h; rfl
      · exact Option.noConfusion h
    · unfold PolicyEngine.skillScopeCheck at h
      split at h
      · cases h; rfl
      · exact Option.noConfusion h
    · unfold PolicyEngine.actionsCheck at h
      split at h
      · cases h; rfl
      · exact Option.noConfusion h
    · unfold PolicyEngine.perTransactionCheck at h
      split at h
      · cases h; rfl
      · exact Option.noConfusion h
    · unfold PolicyEngine.monthlyBudgetCheck at h
      split at h
      · cases h; rfl
      · exact Option.noConfusion h
    · unfold PolicyEngine.approvalCheck at h
      split at h
      · cases h; rfl
      · exact Option.noConfusion h
    · unfold PolicyEngine.conditionCheck at h
      split at h
      · split at h
        · exact Option.noConfusion h
        · cases h; rfl
        · cases h; rfl
      · exact Option.noConfusion h
  · intro r hr
    have hmem := firstFail_mem _ _ hr
    simp only [PolicyEngine.checkList, List.take, List.mem_cons, List.not_mem_nil,
      or_false] at hmem
    rcases hmem with h | h | h | h
    · unfold PolicyEngine.denyCheck at h
      split at h
      · cases h
        exact strContainsSub_append _ _ _
      · exact Option.noConfusion h
    · unfold PolicyEngine.agentScopeCheck at h
      split at h
      · cases h
        exact strContainsSub_append _ _ _
      · exact Option.noConfusion h
    · unfold PolicyEngine.skillScopeCheck at h
      split at h
      · cases h
        exact strContainsSub_append _ _ _
      · exact Option.noConfusion h
    · unfold PolicyEngine.actionsCheck at h
      split at h
      · cases h
        exact strContainsSub_append _ _ _
      · exact Option.noConfusion h

/-- Request from an agent the scenario policy does not grant. -/
def unknownAgentRequest : CredentialRequest where
  credential_name := "stripe-key"
  agent_id := "agent-unknown"
  purpose := "process payment"
  amount := some 25
  action := some "charge"

/-- The not-granted denial produced for unknownAgentRequest by the agent-scope check. -/
def notGrantedRes : PolicyEvalResult :=
  { decision := .deny
    reason := "Agent \x27agent-unknown\x27 is not granted access by policy \x27test-stripe\x27."
    policy_name := some "test-stripe" }

/-- Witness for evaluate_check_order at the scenario policy and an ungranted agent. -/
theorem evaluate_check_order_witness :
    notGrantedRes.policy_name = some "test-stripe"
    ∧ strContainsSub notGrantedRes.reason "test-stripe" = true := by
  have h := evaluate_check_order celStubExt stripeLikePolicy unknownAgentRequest {}
  exact ⟨h.2.1 notGrantedRes (by rfl), h.2.2.1 notGrantedRes (by rfl)⟩

theorem evalLoop_eq_find (E : HostExt) (request : CredentialRequest) (context : EvalContext)
    (l : List Policy) :
    PolicyEngine.evalLoop E request context l =
      (l.map (fun p => PolicyEngine.evaluate E p request context)).find?
        (fun r => r.decision == .allow || r.decision == .require_approval) := by
  induction l with
  | nil => rfl
  | cons p ps ih =>
    simp only [PolicyEngine.evalLoop, List.map_cons, List.find?_cons]
    cases ha : (PolicyEngine.evaluate E p request context).decision == PolicyDecision.allow
    · cases hq : (PolicyEngine.evaluate E p request context).decision ==
          PolicyDecision.require_approval
      · simp [ha, hq, ih]
      · simp [ha, hq]
    · simp [ha]

/-- Claim C4: evaluateFirst considers exactly the policies whose credential equals the
credential of the request, in document order; with none it returns the no-policy denial;
otherwise it returns the first candidate result that is allow or require_approval, and
when every candidate denies it returns the denial of the last candidate. -/
theorem evaluateFirst_priority_order (E : HostExt) (policies : List Policy)
    (request : CredentialRequest) (context : EvalContext) :
    ((policies.filter (fun p => p.credential == request.credential_name)) = [] →
      PolicyEngine.evaluateFirst E policies request context =
        PolicyEngine.noPolicyResult request)
    ∧ (∀ r, ((policies.filter (fun p => p.credential == request.credential_name)).map
          (fun p => PolicyEngine.evaluate E p request context)).find?
          (fun r => r.decision == .allow || r.decision == .require_approval) = some r →
        PolicyEngine.evaluateFirst E policies request context = r)
    ∧ (∀ plast, ((policies.filter (fun p => p.credential == request.credential_name)).map
          (fun p => PolicyEngine.evaluate E p request context)).find?
          (fun r => r.decision == .allow || r.decision == .require_approval) = none →
        (policies.filter (fun p => p.credential == request.credential_name)).getLast? =
          some plast →
        PolicyEngine.evaluateFirst E policies request context =
          PolicyEngine.evaluate E plast request context) := by
  refine ⟨?_, ?_, ?_⟩
  · intro h
    unfold PolicyEngine.evaluateFirst
    simp only [h]
  · intro r hr
    unfold PolicyEngine.evaluateFirst
    cases hm : policies.filter (fun p => p.credential == request.credential_name) with
    | nil => rw [hm] at hr; simp at hr
    | cons p ps =>
      rw [hm] at hr
      simp only [evalLoop_eq_find, hr]
  · intro plast hnone hlast
    unfold PolicyEngine.evaluateFirst
    cases hm : policies.filter (fun p => p.credential == request.credential_name) with
    | nil => rw [hm] at hlast; simp at hlast
    | cons p ps =>
      rw [hm] at hnone hlast
      simp only [evalLoop_eq_find, hnone]
      rw [List.getLast?_eq_getLast _ (List.cons_ne_nil p ps)] at hlast
      cases hlast
      rfl


/-- Scenario 1 request: granted agent, small amount, allowed action. -/
def happyRequest : CredentialRequest where
  credential_name := "stripe-key"
  agent_id := "test-agent"
  purpose := "charge customer"
  amount := some 25
  action := some "charge"

/-- Witness for evaluateFirst_priority_order: an allow returned for the granted agent
and the last denial returned for an ungranted one. -/
theorem evaluateFirst_priority_order_witness :
    PolicyEngine.evaluateFirst celStubExt [stripeLikePolicy] happyRequest {} =
      PolicyEngine.allowResult stripeLikePolicy
    ∧ PolicyEngine.evaluateFirst celStubExt [stripeLikePolicy] unknownAgentRequest {} =
      notGrantedRes := by
  have h1 := evaluateFirst_priority_order celStubExt [stripeLikePolicy] happyRequest {}
  have h2 := evaluateFirst_priority_order celStubExt [stripeLikePolicy] unknownAgentRequest {}
  exact ⟨h1.2.1 (PolicyEngine.allowResult stripeLikePolicy) (by with_unfolding_all rfl),
    (h2.2.2 stripeLikePolicy (by with_unfolding_all rfl) (by rfl)).trans
      (by with_unfolding_all rfl)⟩

/-- Claim C1 (amended): when the pre-filter leaves no policy matching the requested
credential, request_credential returns denied with the no-policy reason. -/
theorem request_denied_no_policy (E : HostExt) (deps : RcDeps)
    (nowIso currentMonth uuid : String) (nowMs : Int) (request : CredentialRequest)
    (h : (PolicyLoader.listPoliciesForAgent deps.policyLoader request.agent_id
        request.skill_id).filter (fun p => p.credential == request.credential_name) = []) :
    ∃ o, requestCredential E deps nowIso currentMonth uuid nowMs request = .ok o
      ∧ o.response.status = "denied"
      ∧ o.response.reason =
          some ("No policy found for credential \x27" ++ request.credential_name ++ "\x27.") := by
  have hres : PolicyEngine.evaluateFirst E
      (PolicyLoader.listPoliciesForAgent deps.policyLoader request.agent_id request.skill_id)
      request
      { monthlySpending := some (AuditLogger.getMonthlySpending E deps.auditRows
          request.credential_name none currentMonth) } =
      PolicyEngine.noPolicyResult request := by
    unfold PolicyEngine.evaluateFirst
    simp only [h]
  refine ⟨{ response := { status := "denied",
                          reason := some ("No policy found for credential \x27" ++
                            request.credential_name ++ "\x27.") }
            events := [{ timestamp := nowIso, event := "credential_requested",
                         agent_id := some request.agent_id, skill_id := request.skill_id,
                         credential_name := some request.credential_name,
                         purpose := some request.purpose },
                       { timestamp := nowIso, event := "credential_denied", policy := none,
                         agent_id := some request.agent_id, skill_id := request.skill_id,
                         credential_name := some request.credential_name,
                         purpose := some request.purpose, outcome := some "denied",
                         details := some ("No policy found for credential \x27" ++
                           request.credential_name ++ "\x27.") }]
            tokenStore := deps.tokenStore }, ?_, rfl, rfl⟩
  simp only [requestCredential, hres, PolicyEngine.noPolicyResult]

/-- Scenario dependencies: an unlocked vault with no credentials, the scenario policy
loaded, an empty audit log and an empty token store. -/
def scenarioDeps : RcDeps where
  vault := { heap := [[7, 7, 7]], key := some 0, salt := some [1, 2], creds := [] }
  policyLoader := { policies := [("test-stripe", stripeLikePolicy)] }
  auditRows := []
  tokenStore := {}

/-- Scenario 2 request: from an agent the policy does not grant. -/
def scenario2Request : CredentialRequest where
  credential_name := "stripe-key"
  agent_id := "unauthorized-agent"
  purpose := "steal money"

/-- Claim C1 (counterexample): end-to-end, the unauthorized agent is denied, but the
reason is the no-policy one (the pre-filter removed the ungranted policy before the
engine ran) and does not mention "not granted". -/
theorem request_unauthorized_reason_lacks_not_granted :
    (requestCredential celStubExt scenarioDeps "2025-01-15T10:00:00Z" "2025-01" "uuid-1" 0
        scenario2Request).map (fun o => (o.response.status, o.response.reason)) =
      Except.ok ("denied", some "No policy found for credential \x27stripe-key\x27.")
    ∧ strContainsSub "No policy found for credential \x27stripe-key\x27." "not granted"
        = false := by
  constructor
  · with_unfolding_all rfl
  · decide

/-- Witness for request_denied_no_policy at the scenario 2 input. -/
theorem request_denied_no_policy_witness :
    (requestCredential celStubExt scenarioDeps "2025-01-15T10:00:00Z" "2025-01" "uuid-1" 0
        scenario2Request).map (fun o => o.response.status) = Except.ok "denied" := by
  obtain ⟨o, h1, h2, h3⟩ := request_denied_no_policy celStubExt scenarioDeps
    "2025-01-15T10:00:00Z" "2025-01" "uuid-1" 0 scenario2Request (by rfl)
  rw [h1]
  simp [Except.map, h2]

/-- Outcome audit event expected after the requested event, by response status. -/
def outcomeEventsFor (status : String) : List String :=
  if status == "denied" then ["credential_denied"]
  else if status == "require_approval" then ["approval_required"]
  else if status == "granted" then ["credential_granted"]
  else []

/-- Claim C5 (amended): every completed request_credential run appends the
credential_requested event first, followed by exactly one outcome event on the denied,
require_approval and granted paths, and by no outcome event on the error path where the
engine allowed but the credential is missing from the vault. -/
theorem request_event_order (E : HostExt) (deps : RcDeps)
    (nowIso currentMonth uuid : String) (nowMs : Int) (request : CredentialRequest)
    (o : RcOutcome)
    (h : requestCredential E deps nowIso currentMonth uuid nowMs request = .ok o) :
    o.events.map (fun e => e.event) =
      "credential_requested" :: outcomeEventsFor o.response.status := by
  simp only [requestCredential] at h
  split at h
  · cases h
    rfl
  · cases h
    rfl
  · split at h
    · exact Except.noConfusion h
    · cases h
      rfl
    · cases h
      rfl

/-- Claim C5 (counterexample): with the engine allowing but the credential absent from
the vault, the run returns an error and appends only credential_requested, with no
outcome event, refuting that every invocation records an outcome event. -/
theorem request_missing_credential_logs_no_outcome :
    (requestCredential celStubExt scenarioDeps "2025-01-15T10:00:00Z" "2025-01" "uuid-1" 0
        happyRequest).map (fun o => (o.response.status, o.events.map (fun e => e.event))) =
      Except.ok ("error", ["credential_requested"]) := by
  with_unfolding_all rfl

/-- The outcome of the scenario 2 denied run, written out. -/
def deniedOutcome : RcOutcome where
  response := { status := "denied",
                reason := some "No policy found for credential \x27stripe-key\x27." }
  events := [
    { timestamp := "2025-01-15T10:00:00Z", event := "credential_requested",
      agent_id := some "unauthorized-agent", skill_id := none,
      credential_name := some "stripe-key", purpose := some "steal money" },
    { timestamp := "2025-01-15T10:00:00Z", event := "credential_denied", policy := none,
      agent_id := some "unauthorized-agent", skill_id := none,
      credential_name := some "stripe-key", purpose := some "steal money",
      outcome := some "denied",
      details := some "No policy found for credential \x27stripe-key\x27." }]
  tokenStore := {}

/-- Witness for request_event_order at the scenario 2 denied run. -/
theorem request_event_order_witness :
    deniedOutcome.events.map (fun e => e.event) =
      "credential_requested" :: outcomeEventsFor deniedOutcome.response.status :=
  request_event_order celStubExt scenarioDeps "2025-01-15T10:00:00Z" "2025-01" "uuid-1" 0
    scenario2Request deniedOutcome (by with_unfolding_all rfl)

/-- Lookup misses a list none of whose keys is the requested one. -/
theorem objLookup_eq_none (l : List (String × Json)) (k : String)
    (h : ∀ kv ∈ l, kv.1 ≠ k) : objLookup l k = none := by
  induction l with
  | nil => rfl
  | cons kv rest ih =>
    obtain ⟨k2, v⟩ := kv
    have hk : (k2 == k) = false :=
      beq_eq_false_iff_ne.mpr (h (k2, v) (List.mem_cons_self _ _))
    simp only [objLookup, hk, Bool.false_eq_true, if_false]
    exact ih (fun kv hm => h kv (List.mem_cons_of_mem _ hm))

/-- Appending keys the lookup cannot hit does not change its result. -/
theorem objLookup_append_none (fields extras : List (String × Json)) (k : String)
    (h : objLookup extras k = none) :
    objLookup (fields ++ extras) k = objLookup fields k := by
  induction fields with
  | nil => simpa using h
  | cons kv rest ih =>
    obtain ⟨k2, v⟩ := kv
    simp only [List.cons_append, objLookup]
    cases hk : (k2 == k) <;> simp [hk, ih]

/-- Per-policy keys declared by PolicySchema. -/
def policyKeys : List String :=
  ["name", "description", "credential", "grant_to", "deny", "actions", "budget",
   "approval_threshold", "condition", "scope", "ttl"]

/-- Claim C2 (counterexample): the loader accepts a document with an unknown top-level
key, and one whose policy has an unknown key, instead of rejecting them. -/
theorem loader_accepts_unknown_keys :
    PolicyLoader.loadFromObject
      (.obj [("version", .str "1"), ("policies", .arr []), ("unknown_extra", .bool true)]) =
      .ok { policies := [] }
    ∧ PolicyLoader.loadFromObject
      (.obj [("version", .str "1"), ("policies", .arr [Json.obj
        [("name", .str "p1"), ("credential", .str "c1"), ("grant_to", .obj []),
         ("budgett", .num 5)]])]) =
      .ok { policies := [("p1",
        { name := "p1", credential := "c1", grant_to := {} })] } := by
  constructor
  · rfl
  · rfl

/-- Claim C2 (amended): unknown top-level keys and unknown per-policy keys are ignored
by validation, which behaves exactly as if they were absent (zod objects are
non-strict). -/
theorem parse_ignores_unknown_keys :
    (∀ (fields extras : List (String × Json)),
      (∀ kv ∈ extras, kv.1 ∉ (["version", "policies"] : List String)) →
      parsePolicyFile (.obj (fields ++ extras)) = parsePolicyFile (.obj fields))
    ∧ (∀ (fields extras : List (String × Json)),
      (∀ kv ∈ extras, kv.1 ∉ policyKeys) →
      parsePolicy (.obj (fields ++ extras)) = parsePolicy (.obj fields)) := by
  constructor
  · intro fields extras h
    have hne : ∀ (k : String), k ∈ (["version", "policies"] : List String) →
        objLookup (fields ++ extras) k = objLookup fields k := by
      intro k hk
      refine objLookup_append_none _ _ _ (objLookup_eq_none _ _ ?_)
      intro kv hm he
      exact (h kv hm) (he ▸ hk)
    simp only [parsePolicyFile, reqField,
      hne "version" (by simp), hne "policies" (by simp)]
  · intro fields extras h
    have hne : ∀ (k : String), k ∈ policyKeys →
        objLookup (fields ++ extras) k = objLookup fields k := by
      intro k hk
      refine objLookup_append_none _ _ _ (objLookup_eq_none _ _ ?_)
      intro kv hm he
      exact (h kv hm) (he ▸ hk)
    simp only [parsePolicy, reqField, optField,
      hne "name" (by simp [policyKeys]), hne "description" (by simp [policyKeys]),
      hne "credential" (by simp [policyKeys]), hne "grant_to" (by simp [policyKeys]),
      hne "deny" (by simp [policyKeys]), hne "actions" (by simp [policyKeys]),
      hne "budget" (by simp [policyKeys]),
      hne "approval_threshold" (by simp [policyKeys]),
      hne "condition" (by simp [policyKeys]), hne "scope" (by simp [policyKeys]),
      hne "ttl" (by simp [policyKeys])]

/-- Witness for parse_ignores_unknown_keys on a document with one unknown key at each
level. -/
theorem parse_ignores_unknown_keys_witness :
    parsePolicyFile (.obj ([("version", .str "1"), ("policies", .arr [])] ++
        [("unknown_extra", .bool true)])) =
      parsePolicyFile (.obj [("version", .str "1"), ("policies", .arr [])])
    ∧ parsePolicy (.obj ([("name", .str "p1"), ("credential", .str "c1"),
        ("grant_to", .obj [])] ++ [("budgett", .num 5)])) =
      parsePolicy (.obj [("name", .str "p1"), ("credential", .str "c1"),
        ("grant_to", .obj [])]) := by
  constructor
  · refine parse_ignores_unknown_keys.1 _ _ ?_
    intro kv hm
    simp only [List.mem_singleton] at hm
    rw [hm]
    decide
  · refine parse_ignores_unknown_keys.2 _ _ ?_
    intro kv hm
    simp only [List.mem_singleton] at hm
    rw [hm]
    decide

/-- Map.get hits the value just set at the same key. -/
theorem jsMapGet_set_eq {α : Type} (m : List (String × α)) (k : String) (v : α) :
    jsMapGet (jsMapSet m k v) k = some v := by
  unfold jsMapSet
  split
  · next hany =>
    induction m with
    | nil => simp at hany
    | cons kv rest ih =>
      obtain ⟨k2, v2⟩ := kv
      cases hk : (k2 == k) with
      | true =>
        simp only [List.map_cons, hk, if_true, jsMapGet, List.find?_cons]
        have : (k == k) = true := by simp
        simp [this]
      | false =>
        have hrest : rest.any (fun kv => kv.1 == k) = true := by
          simp only [List.any_cons, hk, Bool.false_or] at hany
          exact hany
        simp only [List.map_cons, hk, Bool.false_eq_true, if_false]
        have := ih hrest
        simpa [jsMapGet, List.find?_cons, hk] using this
  · next hany =>
    induction m with
    | nil =>
      simp [jsMapGet, List.find?_cons]
    | cons kv rest ih =>
      obtain ⟨k2, v2⟩ := kv
      have hk : (k2 == k) = false := by
        by_contra hc
        exact hany (by simp [List.any_cons, eq_true_of_ne_false hc])
      have hrest : ¬ rest.any (fun kv => kv.1 == k) = true := by
        intro hc
        exact hany (by simp [List.any_cons, hc])
      simpa [jsMapGet, List.find?_cons, hk] using ih hrest

/-- Replacing the binding of one key does not disturb lookups of another key. -/
theorem jsMapGet_update_ne {α : Type} (m : List (String × α)) (k n : String) (v : α)
    (h : (k == n) = false) :
    jsMapGet (m.map (fun kv => if kv.1 == k then (k, v) else kv)) n = jsMapGet m n := by
  induction m with
  | nil => rfl
  | cons kv rest ih =>
    obtain ⟨k2, v2⟩ := kv
    cases hk : (k2 == k) with
    | true =>
      have h2 : (k2 == n) = false := by
        rw [show k2 = k from eq_of_beq hk]
        exact h
      simp only [List.map_cons, hk, if_true, jsMapGet, List.find?_cons, h, h2]
      exact ih
    | false =>
      cases h2 : (k2 == n) with
      | true =>
        simp only [List.map_cons, hk, Bool.false_eq_true, if_false, jsMapGet,
          List.find?_cons, h2]
      | false =>
        simp only [List.map_cons, hk, Bool.false_eq_true, if_false, jsMapGet,
          List.find?_cons, h2]
        exact ih

/-- Appending a binding for one key does not disturb lookups of another key. -/
theorem jsMapGet_append_single_ne {α : Type} (m : List (String × α)) (k n : String) (v : α)
    (h : (k == n) = false) : jsMapGet (m ++ [(k, v)]) n = jsMapGet m n := by
  induction m with
  | nil => simp [jsMapGet, List.find?_cons, h]
  | cons kv rest ih =>
    obtain ⟨k2, v2⟩ := kv
    cases h2 : (k2 == n) with
    | true => simp only [List.cons_append, jsMapGet, List.find?_cons, h2]
    | false =>
      simp only [List.cons_append, jsMapGet, List.find?_cons, h2]
      exact ih

/-- Map.get at a different key is unchanged by Map.set. -/
theorem jsMapGet_set_ne {α : Type} (m : List (String × α)) (k n : String) (v : α)
    (h : (k == n) = false) : jsMapGet (jsMapSet m k v) n = jsMapGet m n := by
  unfold jsMapSet
  split
  · exact jsMapGet_update_ne m k n v h
  · exact jsMapGet_append_single_ne m k n v h

/-- Map.get misses after Map.delete of the key. -/
theorem jsMapGet_delete_eq {α : Type} (m : List (String × α)) (k : String) :
    jsMapGet (jsMapDelete m k) k = none := by
  induction m with
  | nil => rfl
  | cons kv rest ih =>
    obtain ⟨k2, v2⟩ := kv
    cases hk : (k2 == k) with
    | true =>
      simp only [jsMapDelete, List.filter_cons, hk, Bool.not_true, Bool.false_eq_true,
        if_false]
      exact ih
    | false =>
      simp only [jsMapDelete, jsMapGet, List.filter_cons, hk, Bool.not_false, if_true,
        List.find?_cons] at ih ⊢
      exact ih

/-- Keys after Map.set: unchanged when the key was present, appended otherwise. -/
theorem jsMapSet_keys {α : Type} (m : List (String × α)) (k : String) (v : α) :
    (jsMapSet m k v).map Prod.fst =
      if m.any (fun kv => kv.1 == k) then m.map Prod.fst else m.map Prod.fst ++ [k] := by
  unfold jsMapSet
  split
  · rw [List.map_map]
    refine List.map_congr_left ?_
    intro kv _
    obtain ⟨k2, v2⟩ := kv
    cases hk : (k2 == k) with
    | true => simp [hk, eq_of_beq hk]
    | false =>
      have hne : k2 ≠ k := beq_eq_false_iff_ne.mp hk
      simp [hk, hne]
  · simp

/-- The last policy carrying a given name in document order. -/
def lastWithName (ps : List Policy) (n : String) : Option Policy :=
  (ps.filter (fun p => p.name == n)).getLast?

/-- First option when present, otherwise the fallback. -/
def optOr {α : Type} (o : Option α) (d : Option α) : Option α :=
  match o with
  | some x => some x
  | none => d

theorem getLast?_cons_elim {α : Type} (a : α) (l : List α) :
    (a :: l).getLast? = optOr l.getLast? (some a) := by
  cases l with
  | nil => rfl
  | cons b m =>
    rw [List.getLast?_cons_cons]
    cases hl : (b :: m).getLast? with
    | some x => rfl
    | none =>
      have := List.getLast?_isSome.mpr (List.cons_ne_nil b m)
      rw [hl] at this
      simp at this

/-- Lookup of the name index built by the loader fold gives the last policy with the
looked-up name, falling back to the initial map. -/
theorem buildIndex_get (ps : List Policy) :
    ∀ (m : List (String × Policy)) (n : String),
      jsMapGet (ps.foldl (fun m p => jsMapSet m p.name p) m) n =
        optOr (lastWithName ps n) (jsMapGet m n) := by
  induction ps with
  | nil => intro m n; simp [lastWithName, optOr]
  | cons p rest ih =>
    intro m n
    simp only [List.foldl_cons]
    rw [ih]
    cases hpn : (p.name == n) with
    | true =>
      have hlast : lastWithName (p :: rest) n =
          optOr (lastWithName rest n) (some p) := by
        unfold lastWithName
        rw [show List.filter (fun q => q.name == n) (p :: rest) =
            p :: List.filter (fun q => q.name == n) rest from
          List.filter_cons_of_pos hpn]
        exact getLast?_cons_elim _ _
      rw [hlast]
      cases hr : lastWithName rest n with
      | some q => rfl
      | none =>
        have hn : n = p.name := (eq_of_beq hpn).symm
        simp only [optOr]
        rw [hn, jsMapGet_set_eq]
    | false =>
      have hlast : lastWithName (p :: rest) n = lastWithName rest n := by
        unfold lastWithName
        rw [show List.filter (fun q => q.name == n) (p :: rest) =
            List.filter (fun q => q.name == n) rest from
          List.filter_cons_of_neg (by simp [hpn])]
      rw [hlast]
      cases hr : lastWithName rest n with
      | some q => rfl
      | none =>
        simp only [optOr]
        exact jsMapGet_set_ne m p.name n p hpn

/-- The name index built by the loader fold has pairwise distinct keys. -/
theorem buildIndex_nodup (ps : List Policy) :
    ∀ (m : List (String × Policy)), (m.map Prod.fst).Nodup →
      ((ps.foldl (fun m p => jsMapSet m p.name p) m).map Prod.fst).Nodup := by
  induction ps with
  | nil => intro m h; exact h
  | cons p rest ih =>
    intro m h
    simp only [List.foldl_cons]
    apply ih
    rw [jsMapSet_keys]
    split
    · exact h
    · next hany =>
      rw [List.nodup_append]
      refine ⟨h, List.nodup_singleton _, ?_⟩
      intro a ha hb
      rw [List.mem_singleton] at hb
      obtain ⟨kv, hkv, hfst⟩ := List.mem_map.mp ha
      apply hany
      rw [List.any_eq_true]
      exact ⟨kv, hkv, by rw [hfst, hb]; simp⟩

/-- Claim C9: a document whose validation succeeds loads without error even when two
policies share a name; the built index maps each name to the last policy carrying it in
document order, so getPolicy and listPolicies see only the later duplicate and at most
one policy per name remains. -/
theorem loader_duplicate_names_last_wins (data : Json) (pf : PolicyFile)
    (h : parsePolicyFile data = .ok pf) :
    PolicyLoader.loadFromObject data =
      .ok { policies := pf.policies.foldl (fun m p => jsMapSet m p.name p) [] }
    ∧ (∀ n, PolicyLoader.getPolicy
        { policies := pf.policies.foldl (fun m p => jsMapSet m p.name p) [] } n =
        lastWithName pf.policies n)
    ∧ ((pf.policies.foldl (fun m p => jsMapSet m p.name p) []).map Prod.fst).Nodup := by
  refine ⟨?_, ?_, ?_⟩
  · unfold PolicyLoader.loadFromObject
    rw [h]
    rfl
  · intro n
    unfold PolicyLoader.getPolicy
    rw [buildIndex_get]
    cases hl : lastWithName pf.policies n with
    | some p => rfl
    | none => rfl
  · exact buildIndex_nodup pf.policies [] (by simp)

/-- A document whose two policies share the name dup. -/
def dupDoc : Json := .obj [("version", .str "1"), ("policies", .arr
  [.obj [("name", .str "dup"), ("credential", .str "c1"), ("grant_to", .obj [])],
   .obj [("name", .str "dup"), ("credential", .str "c2"), ("grant_to", .obj [])]])]

/-- The earlier duplicate policy. -/
def dupPol1 : Policy := { name := "dup", credential := "c1", grant_to := {} }

/-- The later duplicate policy. -/
def dupPol2 : Policy := { name := "dup", credential := "c2", grant_to := {} }

/-- Validated form of dupDoc. -/
def dupPf : PolicyFile := { version := "1", policies := [dupPol1, dupPol2] }

/-- Witness for loader_duplicate_names_last_wins on the duplicate-name document. -/
theorem loader_duplicate_names_last_wins_witness :
    PolicyLoader.loadFromObject dupDoc = .ok { policies := [("dup", dupPol2)] }
    ∧ PolicyLoader.getPolicy { policies := [("dup", dupPol2)] } "dup" = some dupPol2 := by
  have h := loader_duplicate_names_last_wins dupDoc dupPf (by rfl)
  exact ⟨h.1.trans (by rfl), (h.2.1 "dup").trans (by rfl)⟩

/-- Claim C7: a token issued with TTL T (default 300 seconds) has issued_at equal to the
issue-time clock and expires_at equal to issued_at plus T*1000; get returns it at any
time strictly before expires_at and returns none at any time at or past expires_at,
deleting the entry from the store. -/
theorem tokenstore_ttl_semantics (params : IssueParams) (uuid : String) (now : Int)
    (st : TokenStore) :
    (TokenStore.issue params uuid now st).1.issued_at = now
    ∧ (TokenStore.issue params uuid now st).1.expires_at =
        now + ((params.ttl.getD 300 : Nat) : Int) * 1000
    ∧ (∀ t : Int, t < (TokenStore.issue params uuid now st).1.expires_at →
        TokenStore.get uuid t (TokenStore.issue params uuid now st).2 =
          (some (TokenStore.issue params uuid now st).1,
           (TokenStore.issue params uuid now st).2))
    ∧ (∀ t : Int, (TokenStore.issue params uuid now st).1.expires_at ≤ t →
        (TokenStore.get uuid t (TokenStore.issue params uuid now st).2).1 = none
        ∧ jsMapGet (TokenStore.get uuid t (TokenStore.issue params uuid now st).2).2.tokens
            uuid = none) := by
  have hget : jsMapGet (TokenStore.issue params uuid now st).2.tokens uuid =
      some (TokenStore.issue params uuid now st).1 := by
    unfold TokenStore.issue
    exact jsMapGet_set_eq _ _ _
  refine ⟨rfl, rfl, ?_, ?_⟩
  · intro t ht
    unfold TokenStore.get
    rw [hget]
    dsimp only
    rw [if_neg (not_le.mpr ht)]
  · intro t ht
    unfold TokenStore.get
    rw [hget]
    dsimp only
    rw [if_pos ht]
    constructor
    · rfl
    · exact jsMapGet_delete_eq _ _

/-- Parameters used for the concrete token-store run. -/
def demoIssueParams : IssueParams where
  credential_name := "stripe-key"
  credential_value := "test-credential-value-abc123"
  policy_name := "test-stripe"
  agent_id := "test-agent"

/-- Witness for tokenstore_ttl_semantics with the default TTL at time 0. -/
theorem tokenstore_ttl_semantics_witness :
    (TokenStore.issue demoIssueParams "uuid-1" 0 {}).1.issued_at = 0
    ∧ (TokenStore.issue demoIssueParams "uuid-1" 0 {}).1.expires_at = 300000
    ∧ TokenStore.get "uuid-1" 5 (TokenStore.issue demoIssueParams "uuid-1" 0 {}).2 =
        (some (TokenStore.issue demoIssueParams "uuid-1" 0 {}).1,
         (TokenStore.issue demoIssueParams "uuid-1" 0 {}).2)
    ∧ (TokenStore.get "uuid-1" 300000
        (TokenStore.issue demoIssueParams "uuid-1" 0 {}).2).1 = none := by
  have h := tokenstore_ttl_semantics demoIssueParams "uuid-1" 0 {}
  refine ⟨h.1, h.2.1.trans (by decide), ?_, ?_⟩
  · exact h.2.2.1 5 (by rw [h.2.1]; decide)
  · exact (h.2.2.2 300000 (by rw [h.2.1]; decide)).1

/-- Claim C10: read-only vault operations require an unlocked vault; a fresh vault and
a closed vault hold no key, and with no key both getCredential and listCredentials
throw the vault-locked error and return no data. -/
theorem vault_reads_require_unlock (E : HostExt) (v : Vault) (name : String) :
    Vault.emptyVault.key = none
    ∧ (Vault.close v).key = none
    ∧ (v.key = none →
        Vault.getCredential E v name = .error Vault.vaultLockedMsg
        ∧ Vault.listCredentials v = .error Vault.vaultLockedMsg) := by
  refine ⟨rfl, rfl, ?_⟩
  intro h
  constructor
  · unfold Vault.getCredential
    rw [h]
  · unfold Vault.listCredentials
    rw [h]

/-- Witness for vault_reads_require_unlock on a fresh vault. -/
theorem vault_reads_require_unlock_witness :
    Vault.getCredential celStubExt Vault.emptyVault "stripe-key" =
      .error Vault.vaultLockedMsg
    ∧ Vault.listCredentials Vault.emptyVault = .error Vault.vaultLockedMsg := by
  have h := vault_reads_require_unlock celStubExt Vault.emptyVault "stripe-key"
  exact h.2.2 rfl

/-- The vault right after initialization with the stub key-derivation oracle. -/
def demoUnlockedVault : Vault :=
  { heap := [[7, 7, 7]], key := some 0, salt := some [1, 2], creds := [] }

/-- Claim C6: initialization stores the derived key bytes in a fresh buffer and close
merely drops the reference (this.key = null); the buffer still holds the derived key
bytes, not zeros, after close, contradicting the required zeroization. -/
theorem vault_close_does_not_zero_key_buffer :
    Vault.initializeVault celStubExt "integration-test-pass" [1, 2] Vault.emptyVault =
      .ok demoUnlockedVault
    ∧ (Vault.close demoUnlockedVault).key = none
    ∧ (Vault.close demoUnlockedVault).heap.getD 0 [] = [7, 7, 7]
    ∧ [7, 7, 7] ≠ List.replicate 3 0 := by
  refine ⟨rfl, rfl, rfl, by decide⟩

/-- A lone % wildcard matches any string. -/
theorem likeMatch_pct (s : List Char) : likeMatch ['%'] s = true := by
  induction s with
  | nil => simp [likeMatch]
  | cons c s2 ih => simp [likeMatch, ih]

/-- A wildcard-free pattern followed by % performs a prefix match. -/
theorem likeMatch_wildcard_free (p : List Char) (hw : ∀ ch ∈ p, ch ≠ '%' ∧ ch ≠ '_') :
    ∀ s : List Char, likeMatch (p ++ ['%']) s = p.isPrefixOf s := by
  induction p with
  | nil =>
    intro s
    simp only [List.nil_append, likeMatch_pct]
    simp [List.isPrefixOf]
  | cons c p ih =>
    intro s
    have hc := hw c (List.mem_cons_self _ _)
    cases s with
    | nil => simp [likeMatch, List.isPrefixOf, hc.1, hc.2]
    | cons d s2 =>
      have ihs := ih (fun ch hm => hw ch (List.mem_cons_of_mem _ hm)) s2
      simp [likeMatch, List.isPrefixOf, hc.1, hc.2, ihs]

/-- The amount a row contributes to monthly spending: the numeric amount field of its
JSON-parsed details, zero when absent, non-numeric or unparseable. -/
def amountOf (E : HostExt) (details : Option String) : Rat :=
  match details with
  | none => 0
  | some d =>
    match E.jsonParse d with
    | some (.obj kvs) =>
      match objLookup kvs "amount" with
      | some (.num q) => q
      | _ => 0
    | _ => 0

/-- Claim C8: for a wildcard-free nonempty month prefix and a JSON oracle that rejects
the empty string (as JSON.parse does), monthly_spending equals the sum of numeric
amount fields of JSON-parsed details over credential_used rows of that credential whose
timestamp begins with the month prefix; rows with missing, unparseable or non-numeric
amounts contribute nothing. -/
theorem getMonthlySpending_spec (E : HostExt) (rows : List AuditRow) (c m cur : String)
    (hw : ∀ ch ∈ m.data, ch ≠ '%' ∧ ch ≠ '_') (hm : m ≠ "")
    (hjs : E.jsonParse "" = none) :
    AuditLogger.getMonthlySpending E rows c (some m) cur =
      ((rows.filter (fun r => r.event == "credential_used" &&
          r.credential_name == some c && m.data.isPrefixOf r.timestamp.data)).map
        (fun r => amountOf E r.details)).sum := by
  have hne : (m == "") = false := beq_eq_false_iff_ne.mpr hm
  have hdata : (m ++ "%").data = m.data ++ ['%'] := by
    obtain ⟨md⟩ := m
    rfl
  have hlike : ∀ ts : String, sqlLike (m ++ "%") ts = m.data.isPrefixOf ts.data := by
    intro ts
    unfold sqlLike
    rw [hdata, likeMatch_wildcard_free m.data hw ts.data]
  simp only [AuditLogger.getMonthlySpending]
  rw [if_neg (by simp [hne])]
  have hfe : (rows.filter (fun r => r.event == "credential_used" &&
        r.credential_name == some c && sqlLike (m ++ "%") r.timestamp)) =
      rows.filter (fun r => r.event == "credential_used" &&
        r.credential_name == some c && m.data.isPrefixOf r.timestamp.data) := by
    refine List.filter_congr ?_
    intro r _
    rw [hlike]
  rw [hfe]
  generalize rows.filter (fun r => r.event == "credential_used" &&
    r.credential_name == some c && m.data.isPrefixOf r.timestamp.data) = l
  suffices h : ∀ a : Rat, List.foldl (fun total r =>
      match r.details with
      | none => total
      | some d =>
        if d == "" then total
        else
          match E.jsonParse d with
          | none => total
          | some (.obj kvs) =>
            match objLookup kvs "amount" with
            | some (.num q) => total + q
            | _ => total
          | some _ => total) a l = a + (l.map (fun r => amountOf E r.details)).sum by
    rw [h 0, zero_add]
  induction l with
  | nil => intro a; simp
  | cons r rest ih =>
    intro a
    rw [List.foldl_cons, List.map_cons, List.sum_cons]
    have hstep : ∀ b : Rat, (match r.details with
        | none => b
        | some d =>
          if d == "" then b
          else
            match E.jsonParse d with
            | none => b
            | some (.obj kvs) =>
              match objLookup kvs "amount" with
              | some (.num q) => b + q
              | _ => b
            | some _ => b) = b + amountOf E r.details := by
      intro b
      cases hd : r.details with
      | none => simp [amountOf]
      | some d =>
        dsimp only
        by_cases hde : (d == "") = true
        · rw [if_pos hde]
          have : d = "" := eq_of_beq hde
          simp [amountOf, this, hjs]
        · rw [if_neg hde]
          cases hp : E.jsonParse d with
          | none => simp [amountOf, hp]
          | some j =>
            cases j with
            | obj kvs =>
              cases ha : objLookup kvs "amount" with
              | none => simp [amountOf, hp, ha]
              | some av =>
                cases av <;> simp [amountOf, hp, ha]
            | null => simp [amountOf, hp]
            | bool b2 => simp [amountOf, hp]
            | num q => simp [amountOf, hp]
            | str s2 => simp [amountOf, hp]
            | arr xs => simp [amountOf, hp]
    rw [hstep a, ih (a + amountOf E r.details)]
    rw [add_assoc]

/-- Host extension whose JSON oracle knows the two details payloads of the demo rows. -/
def auditExt : HostExt where
  cel := fun _ _ => .ok (.bool true)
  jsToStr := fun _ => ""
  jsonParse := fun s =>
    if s == "\x7b\"amount\":25.5\x7d" then some (.obj [("amount", .num (51 / 2))])
    else if s == "\x7b\"amount\":14.5\x7d" then some (.obj [("amount", .num (29 / 2))])
    else none
  decryptFn := fun _ _ => .error "Unsupported state or unable to authenticate data"
  deriveKeyFn := fun _ _ => [7, 7, 7]
  isoOfMs := fun _ => ""

/-- Three credential_used rows: 25.5 and 14.5 in January, 25.5 in February. -/
def demoRows : List AuditRow :=
  [{ id := 1, timestamp := "2025-01-15T10:00:00Z", event := "credential_used",
     credential_name := some "stripe-key", details := some "\x7b\"amount\":25.5\x7d" },
   { id := 2, timestamp := "2025-01-20T10:00:00Z", event := "credential_used",
     credential_name := some "stripe-key", details := some "\x7b\"amount\":14.5\x7d" },
   { id := 3, timestamp := "2025-02-01T10:00:00Z", event := "credential_used",
     credential_name := some "stripe-key", details := some "\x7b\"amount\":25.5\x7d" }]

/-- Witness for getMonthlySpending_spec: the January rows sum to 40. -/
theorem getMonthlySpending_spec_witness :
    AuditLogger.getMonthlySpending auditExt demoRows "stripe-key" (some "2025-01")
      "2025-03" = 40 := by
  have h := getMonthlySpending_spec auditExt demoRows "stripe-key" "2025-01" "2025-03"
    (by decide) (by decide) (by rfl)
  rw [h]
  with_unfolding_all rfl
